import Mathlib

/-!
Verification of the hyperfleet guest init agent (`src/guest/init.c`).

Bytes and characters are modelled as `Nat` (values 0..255 where the C type
is `unsigned char`); byte buffers and C strings are `List Nat`.  Fallible C
functions (returning NULL) are modelled with `Option`.
-/

/-- Character codes of a Lean string literal, used to write C string
literals readably. -/
def ascii (s : String) : List Nat := s.toList.map Char.toNat

/-- The bytes of a NUL-terminated C string: everything up to the first NUL.
Models what `strlen`-based code sees of a byte buffer. -/
def cString (s : List Nat) : List Nat := s.takeWhile (· ≠ 0)

/-! ### Base64 codec (init.c lines 94-166) -/

/-- `base64_table` (init.c line 95): the 64 characters
`A-Z a-z 0-9 + /` of the standard alphabet. -/
def base64_table : List Nat :=
  [65, 66, 67, 68, 69, 70, 71, 72, 73, 74, 75, 76, 77, 78, 79, 80,
   81, 82, 83, 84, 85, 86, 87, 88, 89, 90,
   97, 98, 99, 100, 101, 102, 103, 104, 105, 106, 107, 108, 109, 110, 111, 112,
   113, 114, 115, 116, 117, 118, 119, 120, 121, 122,
   48, 49, 50, 51, 52, 53, 54, 55, 56, 57, 43, 47]

/-- Indexing into `base64_table`; indices produced by the encoder are
always masked with `& 0x3F`, hence in range. -/
def b64char (idx : Nat) : Nat := base64_table.getD idx 0

/-- `base64_decode_table` (init.c lines 96-113), copied entry for entry. -/
def base64_decode_table : List Int :=
  [-1,-1,-1,-1,-1,-1,-1,-1,-1,-1,-1,-1,-1,-1,-1,-1,
   -1,-1,-1,-1,-1,-1,-1,-1,-1,-1,-1,-1,-1,-1,-1,-1,
   -1,-1,-1,-1,-1,-1,-1,-1,-1,-1,-1,62,-1,-1,-1,63,
   52,53,54,55,56,57,58,59,60,61,-1,-1,-1,-1,-1,-1,
   -1, 0, 1, 2, 3, 4, 5, 6, 7, 8, 9,10,11,12,13,14,
   15,16,17,18,19,20,21,22,23,24,25,-1,-1,-1,-1,-1,
   -1,26,27,28,29,30,31,32,33,34,35,36,37,38,39,40,
   41,42,43,44,45,46,47,48,49,50,51,-1,-1,-1,-1,-1,
   -1,-1,-1,-1,-1,-1,-1,-1,-1,-1,-1,-1,-1,-1,-1,-1,
   -1,-1,-1,-1,-1,-1,-1,-1,-1,-1,-1,-1,-1,-1,-1,-1,
   -1,-1,-1,-1,-1,-1,-1,-1,-1,-1,-1,-1,-1,-1,-1,-1,
   -1,-1,-1,-1,-1,-1,-1,-1,-1,-1,-1,-1,-1,-1,-1,-1,
   -1,-1,-1,-1,-1,-1,-1,-1,-1,-1,-1,-1,-1,-1,-1,-1,
   -1,-1,-1,-1,-1,-1,-1,-1,-1,-1,-1,-1,-1,-1,-1,-1,
   -1,-1,-1,-1,-1,-1,-1,-1,-1,-1,-1,-1,-1,-1,-1,-1,
   -1,-1,-1,-1,-1,-1,-1,-1,-1,-1,-1,-1,-1,-1,-1,-1]

/-- `base64_decode_table[(unsigned char)c]`; decoder inputs are byte
values, so the index is in range of the 256-entry table. -/
def b64dec (c : Nat) : Int := base64_decode_table.getD c (-1)

/-- `base64_encode` (init.c lines 115-134): processes input bytes three at
a time (`for (i = 0; i < len; i += 3)`), emitting four characters per
group; the third and fourth characters are `'='` (61) when the group has
fewer than two or three bytes.  The trailing NUL is not part of the
returned text (`*out_len = p - out` excludes it). -/
def base64_encode : List Nat → List Nat
  | [] => []
  | [x] =>
    -- n = data[i] << 16
    [b64char ((x <<< 16 >>> 18) &&& 63), b64char ((x <<< 16 >>> 12) &&& 63), 61, 61]
  | [x, y] =>
    -- n = data[i] << 16 | data[i+1] << 8
    [b64char ((((x <<< 16) ||| (y <<< 8)) >>> 18) &&& 63),
     b64char ((((x <<< 16) ||| (y <<< 8)) >>> 12) &&& 63),
     b64char ((((x <<< 16) ||| (y <<< 8)) >>> 6) &&& 63), 61]
  | x :: y :: z :: rest =>
    b64char (((((x <<< 16) ||| (y <<< 8)) ||| z) >>> 18) &&& 63) ::
    b64char (((((x <<< 16) ||| (y <<< 8)) ||| z) >>> 12) &&& 63) ::
    b64char (((((x <<< 16) ||| (y <<< 8)) ||| z) >>> 6) &&& 63) ::
    b64char ((((x <<< 16) ||| (y <<< 8)) ||| z) &&& 63) ::
    base64_encode rest

/-- The local `n` of the decode loop (init.c line 157):
`n = (a << 18) | (b << 12) | ((c >= 0 ? c : 0) << 6) | (d >= 0 ? d : 0)`. -/
def decode_quad_n (c0 c1 c2 c3 : Nat) : Nat :=
  (((b64dec c0).toNat <<< 18 ||| (b64dec c1).toNat <<< 12) |||
    (if 0 ≤ b64dec c2 then (b64dec c2).toNat else 0) <<< 6) |||
    (if 0 ≤ b64dec c3 then (b64dec c3).toNat else 0)

/-- One iteration of the decode loop of `base64_decode`
(init.c lines 147-161): table lookups, validity checks against `'='`
padding, reassembly of `n`, and emission of one to three bytes. -/
def decode_quad (c0 c1 c2 c3 : Nat) : Option (List Nat) :=
  if b64dec c0 < 0 ∨ b64dec c1 < 0 then none
  else if c2 ≠ 61 ∧ b64dec c2 < 0 then none
  else if c3 ≠ 61 ∧ b64dec c3 < 0 then none
  else
    some (((decode_quad_n c0 c1 c2 c3 >>> 16) &&& 255) ::
      ((if c2 ≠ 61 then [(decode_quad_n c0 c1 c2 c3 >>> 8) &&& 255] else []) ++
       (if c3 ≠ 61 then [decode_quad_n c0 c1 c2 c3 &&& 255] else [])))

/-- The full decode loop (`for (i = 0; i < len; i += 4)`): the input
length is a multiple of 4 whenever this is reached. -/
def base64_decode_quads : List Nat → Option (List Nat)
  | c0 :: c1 :: c2 :: c3 :: rest =>
    (decode_quad c0 c1 c2 c3).bind fun bytes =>
      (base64_decode_quads rest).map fun tail => bytes ++ tail
  | _ => some []

/-- `base64_decode` (init.c lines 136-166).  `len % 4 != 0` is rejected.
For `len = 0` the function reads `data[len - 1]` and `data[len - 2]`:
with `len` of C type `size_t` these indices are `2^64 - 1` and `2^64 - 2`,
outside the input buffer (see `size_t_minus`), so the empty input is
modelled as failure.  For `len >= 4` those two reads are in bounds and
only shrink the allocation size `olen`, never below the number of bytes
the loop writes, so they do not affect the decoded value. -/
def base64_decode (data : List Nat) : Option (List Nat) :=
  if data.length % 4 ≠ 0 then none
  else if data.length = 0 then none
  else base64_decode_quads data

/-- `len - off` as computed on the C type `size_t` (64-bit unsigned):
subtraction wraps modulo `2^64`. -/
def size_t_minus (len off : Nat) : Nat := (len + (2 ^ 64 - off)) % 2 ^ 64

/-! ### Base64 round-trip lemmas -/

theorem b64dec_b64char {k : Nat} (h : k < 64) : b64dec (b64char k) = (k : Int) := by
  revert k h; decide

theorem b64char_ne_pad {k : Nat} (h : k < 64) : b64char k ≠ 61 := by
  revert k h; decide

theorem and63_eq_mod (m : Nat) : m &&& 63 = m % 64 := by
  have h := Nat.and_pow_two_sub_one_eq_mod m 6
  norm_num at h
  exact h

theorem and255_eq_mod (m : Nat) : m &&& 255 = m % 256 := by
  have h := Nat.and_pow_two_sub_one_eq_mod m 8
  norm_num at h
  exact h

theorem and63_lt (m : Nat) : m &&& 63 < 64 := by
  rw [and63_eq_mod]; exact Nat.mod_lt _ (by norm_num)

/-- Bitwise or of disjoint parts is addition: `(a <<< k) ||| b = a <<< k + b`
whenever `b < 2 ^ k`. -/
theorem shiftLeft_lor_eq_add (a : Nat) {b k : Nat} (hb : b < 2 ^ k) :
    (a <<< k) ||| b = a <<< k + b := by
  apply Nat.eq_of_testBit_eq
  intro j
  have hadd : a <<< k + b = 2 ^ k * a + b := by rw [Nat.shiftLeft_eq, Nat.mul_comm]
  rw [Nat.testBit_lor, hadd, Nat.testBit_mul_pow_two_add a hb j]
  by_cases hj : j < k
  · have hsh : (a <<< k).testBit j = false := by
      simp [Nat.testBit_shiftLeft, Nat.not_le.mpr hj]
    simp [hsh, hj]
  · have hjk : k ≤ j := Nat.le_of_not_lt hj
    have hbj : b.testBit j = false :=
      Nat.testBit_lt_two_pow (lt_of_lt_of_le hb (Nat.pow_le_pow_right (by norm_num) hjk))
    have hsh : (a <<< k).testBit j = a.testBit (j - k) := by
      simp [Nat.testBit_shiftLeft, hjk]
    simp [hsh, hbj, hj]

theorem lor3_eq {x y z : Nat} (hy : y < 256) (hz : z < 256) :
    ((x <<< 16) ||| (y <<< 8)) ||| z = x * 65536 + y * 256 + z := by
  have h1 : (x <<< 16) ||| (y <<< 8) = x <<< 16 + y <<< 8 := by
    apply shiftLeft_lor_eq_add
    rw [Nat.shiftLeft_eq]
    norm_num
    omega
  rw [h1]
  have h2 : x <<< 16 + y <<< 8 = (x <<< 8 + y) <<< 8 := by
    simp only [Nat.shiftLeft_eq]
    ring
  have hz' : z < 2 ^ 8 := by norm_num; omega
  rw [h2, shiftLeft_lor_eq_add _ hz']
  simp only [Nat.shiftLeft_eq]
  ring

theorem lor4_eq {a b c d : Nat} (hb : b < 64) (hc : c < 64) (hd : d < 64) :
    ((a <<< 18 ||| b <<< 12) ||| c <<< 6) ||| d =
      a * 262144 + b * 4096 + c * 64 + d := by
  have h1 : a <<< 18 ||| b <<< 12 = a <<< 18 + b <<< 12 := by
    apply shiftLeft_lor_eq_add
    rw [Nat.shiftLeft_eq]
    norm_num
    omega
  rw [h1]
  have h2 : a <<< 18 + b <<< 12 = (a <<< 6 + b) <<< 12 := by
    simp only [Nat.shiftLeft_eq]; ring
  have h3 : (a <<< 6 + b) <<< 12 ||| c <<< 6 = (a <<< 6 + b) <<< 12 + c <<< 6 := by
    apply shiftLeft_lor_eq_add
    rw [Nat.shiftLeft_eq]
    norm_num
    omega
  rw [h2, h3]
  have h4 : (a <<< 6 + b) <<< 12 + c <<< 6 = ((a <<< 6 + b) <<< 6 + c) <<< 6 := by
    simp only [Nat.shiftLeft_eq]; ring
  have hd' : d < 2 ^ 6 := by norm_num; omega
  rw [h4, shiftLeft_lor_eq_add _ hd']
  simp only [Nat.shiftLeft_eq]
  ring

theorem b64dec_pad : b64dec 61 = -1 := by decide

theorem decode_quad_n_full {f0 f1 f2 f3 : Nat}
    (h0 : f0 < 64) (h1 : f1 < 64) (h2 : f2 < 64) (h3 : f3 < 64) :
    decode_quad_n (b64char f0) (b64char f1) (b64char f2) (b64char f3) =
      f0 * 262144 + f1 * 4096 + f2 * 64 + f3 := by
  unfold decode_quad_n
  rw [b64dec_b64char h0, b64dec_b64char h1, b64dec_b64char h2, b64dec_b64char h3]
  rw [if_pos (Int.natCast_nonneg f2), if_pos (Int.natCast_nonneg f3)]
  simp only [Int.toNat_natCast]
  exact lor4_eq h1 h2 h3

theorem decode_quad_n_pad1 {f0 f1 f2 : Nat}
    (h0 : f0 < 64) (h1 : f1 < 64) (h2 : f2 < 64) :
    decode_quad_n (b64char f0) (b64char f1) (b64char f2) 61 =
      f0 * 262144 + f1 * 4096 + f2 * 64 := by
  unfold decode_quad_n
  rw [b64dec_b64char h0, b64dec_b64char h1, b64dec_b64char h2, b64dec_pad]
  rw [if_pos (Int.natCast_nonneg f2), if_neg (by decide : ¬(0 : Int) ≤ -1)]
  simp only [Int.toNat_natCast]
  rw [lor4_eq h1 h2 (by omega : (0 : Nat) < 64)]
  omega

theorem decode_quad_n_pad2 {f0 f1 : Nat} (h0 : f0 < 64) (h1 : f1 < 64) :
    decode_quad_n (b64char f0) (b64char f1) 61 61 =
      f0 * 262144 + f1 * 4096 := by
  unfold decode_quad_n
  rw [b64dec_b64char h0, b64dec_b64char h1, b64dec_pad]
  rw [if_neg (by decide : ¬(0 : Int) ≤ -1)]
  simp only [Int.toNat_natCast]
  rw [lor4_eq h1 (by omega : (0 : Nat) < 64) (by omega : (0 : Nat) < 64)]
  omega

theorem decode_quad_full {f0 f1 f2 f3 : Nat}
    (h0 : f0 < 64) (h1 : f1 < 64) (h2 : f2 < 64) (h3 : f3 < 64) :
    decode_quad (b64char f0) (b64char f1) (b64char f2) (b64char f3) =
      some [((f0 * 262144 + f1 * 4096 + f2 * 64 + f3) >>> 16) &&& 255,
            ((f0 * 262144 + f1 * 4096 + f2 * 64 + f3) >>> 8) &&& 255,
            (f0 * 262144 + f1 * 4096 + f2 * 64 + f3) &&& 255] := by
  unfold decode_quad
  rw [b64dec_b64char h0, b64dec_b64char h1, b64dec_b64char h2, b64dec_b64char h3]
  rw [if_neg (by omega : ¬((f0 : Int) < 0 ∨ (f1 : Int) < 0))]
  rw [if_neg (fun hc => by exact absurd hc.2 (by omega))]
  rw [if_neg (fun hc => by exact absurd hc.2 (by omega))]
  rw [if_pos (b64char_ne_pad h2), if_pos (b64char_ne_pad h3)]
  rw [decode_quad_n_full h0 h1 h2 h3]
  rfl

theorem decode_quad_pad1 {f0 f1 f2 : Nat}
    (h0 : f0 < 64) (h1 : f1 < 64) (h2 : f2 < 64) :
    decode_quad (b64char f0) (b64char f1) (b64char f2) 61 =
      some [((f0 * 262144 + f1 * 4096 + f2 * 64) >>> 16) &&& 255,
            ((f0 * 262144 + f1 * 4096 + f2 * 64) >>> 8) &&& 255] := by
  unfold decode_quad
  rw [b64dec_b64char h0, b64dec_b64char h1, b64dec_b64char h2, b64dec_pad]
  rw [if_neg (by omega : ¬((f0 : Int) < 0 ∨ (f1 : Int) < 0))]
  rw [if_neg (fun hc => by exact absurd hc.2 (by omega))]
  rw [if_neg (fun hc => by exact absurd rfl hc.1)]
  rw [if_pos (b64char_ne_pad h2), if_neg (fun hc => hc rfl)]
  rw [decode_quad_n_pad1 h0 h1 h2]
  rfl

theorem decode_quad_pad2 {f0 f1 : Nat} (h0 : f0 < 64) (h1 : f1 < 64) :
    decode_quad (b64char f0) (b64char f1) 61 61 =
      some [((f0 * 262144 + f1 * 4096) >>> 16) &&& 255] := by
  unfold decode_quad
  rw [b64dec_b64char h0, b64dec_b64char h1, b64dec_pad]
  rw [if_neg (by omega : ¬((f0 : Int) < 0 ∨ (f1 : Int) < 0))]
  rw [if_neg (fun hc => by exact absurd rfl hc.1)]
  rw [if_neg (fun hc => by exact absurd rfl hc.1)]
  rw [if_neg (fun hc => hc rfl), if_neg (fun hc => hc rfl)]
  rw [decode_quad_n_pad2 h0 h1]
  rfl

theorem decode_quads_nil : base64_decode_quads [] = some [] := rfl

theorem lor2_eq {x y : Nat} (hy : y < 256) :
    (x <<< 16) ||| (y <<< 8) = x * 65536 + y * 256 := by
  have h1 : (x <<< 16) ||| (y <<< 8) = x <<< 16 + y <<< 8 := by
    apply shiftLeft_lor_eq_add
    rw [Nat.shiftLeft_eq]
    norm_num
    omega
  rw [h1]
  simp only [Nat.shiftLeft_eq]

theorem map_some_append (f : List Nat) :
    Option.map (fun tail => f ++ tail) (some ([] : List Nat)) = some f := by
  simp

theorem two_pow_6 : (2 : Nat) ^ 6 = 64 := by norm_num

theorem two_pow_8 : (2 : Nat) ^ 8 = 256 := by norm_num

theorem two_pow_12 : (2 : Nat) ^ 12 = 4096 := by norm_num

theorem two_pow_16 : (2 : Nat) ^ 16 = 65536 := by norm_num

theorem two_pow_18 : (2 : Nat) ^ 18 = 262144 := by norm_num

/-- Decoding inverts encoding at the level of the two loops: for any list
of bytes, running the decode loop on the encoder's output returns exactly
the input bytes. -/
theorem decode_quads_encode :
    ∀ b : List Nat, (∀ v ∈ b, v < 256) →
      base64_decode_quads (base64_encode b) = some b
  | [], _ => rfl
  | [x], h => by
    have hx : x < 256 := h x (by simp)
    have e := decode_quad_pad2 (and63_lt (x <<< 16 >>> 18)) (and63_lt (x <<< 16 >>> 12))
    simp only [base64_encode, base64_decode_quads, e, decode_quads_nil,
      Option.some_bind, map_some_append, Option.some.injEq, List.cons.injEq, and_true]
    simp only [and255_eq_mod, and63_eq_mod, Nat.shiftRight_eq_div_pow, Nat.shiftLeft_eq,
      two_pow_6, two_pow_8, two_pow_12, two_pow_16, two_pow_18]
    omega
  | [x, y], h => by
    have hx : x < 256 := h x (by simp)
    have hy : y < 256 := h y (by simp)
    have e := decode_quad_pad1 (and63_lt (((x <<< 16) ||| (y <<< 8)) >>> 18))
      (and63_lt (((x <<< 16) ||| (y <<< 8)) >>> 12))
      (and63_lt (((x <<< 16) ||| (y <<< 8)) >>> 6))
    simp only [base64_encode, base64_decode_quads, e, decode_quads_nil,
      Option.some_bind, map_some_append, Option.some.injEq, List.cons.injEq, and_true]
    simp only [lor2_eq hy]
    simp only [and255_eq_mod, and63_eq_mod, Nat.shiftRight_eq_div_pow, Nat.shiftLeft_eq,
      two_pow_6, two_pow_8, two_pow_12, two_pow_16, two_pow_18]
    refine ⟨?_, ?_⟩ <;> omega
  | x :: y :: z :: rest, h => by
    have hx : x < 256 := h x (by simp)
    have hy : y < 256 := h y (by simp)
    have hz : z < 256 := h z (by simp)
    have ih := decode_quads_encode rest (fun v hv => h v (by simp [hv]))
    have e := decode_quad_full (and63_lt ((((x <<< 16) ||| (y <<< 8)) ||| z) >>> 18))
      (and63_lt ((((x <<< 16) ||| (y <<< 8)) ||| z) >>> 12))
      (and63_lt ((((x <<< 16) ||| (y <<< 8)) ||| z) >>> 6))
      (and63_lt (((x <<< 16) ||| (y <<< 8)) ||| z))
    simp only [base64_encode, base64_decode_quads, e, ih,
      Option.some_bind, Option.map_some', Option.some.injEq, List.cons_append,
      List.nil_append, List.cons.injEq]
    simp only [lor3_eq hy hz]
    simp only [and255_eq_mod, and63_eq_mod, Nat.shiftRight_eq_div_pow, Nat.shiftLeft_eq,
      two_pow_6, two_pow_8, two_pow_12, two_pow_16, two_pow_18]
    refine ⟨?_, ?_, ?_, trivial⟩ <;> omega

theorem base64_encode_length :
    ∀ b : List Nat, (base64_encode b).length % 4 = 0
  | [] => rfl
  | [_] => by simp [base64_encode]
  | [_, _] => by simp [base64_encode]
  | x :: y :: z :: rest => by
    simp only [base64_encode, List.length_cons]
    have h := base64_encode_length rest
    omega

theorem base64_encode_ne_nil : ∀ b : List Nat, b ≠ [] → base64_encode b ≠ []
  | [], h => absurd rfl h
  | [_], _ => by simp [base64_encode]
  | [_, _], _ => by simp [base64_encode]
  | _ :: _ :: _ :: _, _ => by simp [base64_encode]

/-- C2 (amended): for every nonempty byte sequence `b`,
`base64_decode (base64_encode b) = some b` — the decoder returns exactly
the bytes that were encoded.  (For the empty sequence the decoder's
padding inspection reads outside the input, see
`base64_roundtrip_empty_cex` and `base64_decode_empty_oob`.) -/
theorem base64_roundtrip_nonempty (b : List Nat) (hne : b ≠ [])
    (hbytes : ∀ v ∈ b, v < 256) :
    base64_decode (base64_encode b) = some b := by
  unfold base64_decode
  rw [if_neg (by simp [base64_encode_length b]),
      if_neg (by simp only [List.length_eq_zero]; exact base64_encode_ne_nil b hne)]
  exact decode_quads_encode b hbytes

/-- Witness for `base64_roundtrip_nonempty` at the concrete byte sequence
`[0, 255, 16, 104]` (which contains a NUL byte and a byte above 0x80). -/
theorem base64_roundtrip_nonempty_witness :
    base64_decode (base64_encode [0, 255, 16, 104]) = some [0, 255, 16, 104] :=
  base64_roundtrip_nonempty [0, 255, 16, 104] (by decide) (by decide)

/-- C2 counterexample: at the empty byte sequence the round trip fails.
`base64_encode [] = []`, and `base64_decode []` passes the `len % 4` check
but then inspects `data[len - 1]` and `data[len - 2]`, which for `len = 0`
lie outside the input (size_t wraparound), modelled as failure — so the
result is not `some []`. -/
theorem base64_roundtrip_empty_cex :
    base64_decode (base64_encode []) ≠ some [] := by decide

/-- C10: refuted at the empty string.  The padding-inspection indices
`len - 1` and `len - 2` are computed in `size_t` arithmetic; for `len = 0`
they equal `2^64 - 1` and `2^64 - 2`, which are not below the input length
0 — the reads are outside the input, and decoding the empty string is
modelled as failure rather than returning the empty byte sequence. -/
theorem base64_decode_empty_oob :
    size_t_minus 0 1 = 2 ^ 64 - 1 ∧ size_t_minus 0 2 = 2 ^ 64 - 2 ∧
    ([] : List Nat).length ≤ size_t_minus 0 1 ∧
    ([] : List Nat).length ≤ size_t_minus 0 2 ∧
    base64_decode [] = none := by decide

/-! ### JSON escaping (init.c lines 228-251) -/

/-- One digit of `snprintf "%04x"` (lowercase hex). -/
def hexDigitChar (d : Nat) : Nat := if d < 10 then 48 + d else 87 + d

/-- The escape text `json_escape` emits for one input byte `c`
(the switch of init.c lines 235-247): quote, backslash, newline, carriage
return and tab become two-character escapes; any other byte below 0x20
becomes the six characters `\u00xx`; all remaining bytes (including
0x80..0xFF) are copied unchanged. -/
def json_escape_byte (c : Nat) : List Nat :=
  if c = 34 then [92, 34]
  else if c = 92 then [92, 92]
  else if c = 10 then [92, 110]
  else if c = 13 then [92, 114]
  else if c = 9 then [92, 116]
  else if c < 32 then [92, 117, 48, 48, hexDigitChar (c / 16), hexDigitChar (c % 16)]
  else [c]

/-- The loop of `json_escape` over the `strlen`-delimited bytes of the
input (init.c lines 234-248). -/
def json_escape_list : List Nat → List Nat
  | [] => []
  | c :: rest => json_escape_byte c ++ json_escape_list rest

/-- `json_escape` applied to a byte buffer holding a C string: `strlen`
stops at the first NUL, so only the bytes before it are escaped. -/
def json_escape (s : List Nat) : List Nat := json_escape_list (cString s)

/-- Hex digit value (inverse of `hexDigitChar` on 0..15). -/
def hexVal (c : Nat) : Nat :=
  if 48 ≤ c ∧ c ≤ 57 then c - 48
  else if 97 ≤ c ∧ c ≤ 102 then c - 87
  else 0

/-- Left inverse of `json_escape_list`.  The wire consumer is the host
client, outside this repository; this function is the mathematical
inverse of the escape table of `json_escape` and witnesses that the
escaped response field determines the escaped bytes. -/
def json_wire_unescape : List Nat → List Nat
  | [] => []
  | c :: rest =>
    if c = 92 then
      match rest with
      | 117 :: h1 :: h2 :: h3 :: h4 :: rest2 =>
        (hexVal h1 * 4096 + hexVal h2 * 256 + hexVal h3 * 16 + hexVal h4) ::
          json_wire_unescape rest2
      | 110 :: rest2 => 10 :: json_wire_unescape rest2
      | 114 :: rest2 => 13 :: json_wire_unescape rest2
      | 116 :: rest2 => 9 :: json_wire_unescape rest2
      | 92 :: rest2 => 92 :: json_wire_unescape rest2
      | 34 :: rest2 => 34 :: json_wire_unescape rest2
      | d :: rest2 => d :: json_wire_unescape rest2
      | [] => [92]
    else c :: json_wire_unescape rest

theorem hexVal_hexDigitChar {d : Nat} (h : d < 16) : hexVal (hexDigitChar d) = d := by
  revert d h; decide

theorem wire_unescape_escape_byte (c : Nat) (t : List Nat) :
    json_wire_unescape (json_escape_byte c ++ t) = c :: json_wire_unescape t := by
  unfold json_escape_byte
  by_cases h34 : c = 34
  · subst h34; rfl
  rw [if_neg h34]
  by_cases h92 : c = 92
  · subst h92; rfl
  rw [if_neg h92]
  by_cases h10 : c = 10
  · subst h10; rfl
  rw [if_neg h10]
  by_cases h13 : c = 13
  · subst h13; rfl
  rw [if_neg h13]
  by_cases h9 : c = 9
  · subst h9; rfl
  rw [if_neg h9]
  by_cases hctl : c < 32
  · rw [if_pos hctl]
    have hstep : json_wire_unescape
        (92 :: 117 :: 48 :: 48 :: hexDigitChar (c / 16) :: hexDigitChar (c % 16) :: t) =
        (hexVal 48 * 4096 + hexVal 48 * 256 + hexVal (hexDigitChar (c / 16)) * 16 +
          hexVal (hexDigitChar (c % 16))) :: json_wire_unescape t := rfl
    have hv : hexVal 48 * 4096 + hexVal 48 * 256 + hexVal (hexDigitChar (c / 16)) * 16 +
        hexVal (hexDigitChar (c % 16)) = c := by
      rw [hexVal_hexDigitChar (show c / 16 < 16 by omega),
          hexVal_hexDigitChar (show c % 16 < 16 by omega)]
      show 0 * 4096 + 0 * 256 + c / 16 * 16 + c % 16 = c
      omega
    show json_wire_unescape
        (92 :: 117 :: 48 :: 48 :: hexDigitChar (c / 16) :: hexDigitChar (c % 16) :: t) =
        c :: json_wire_unescape t
    rw [hstep, hv]
  · rw [if_neg hctl]
    show json_wire_unescape (c :: t) = c :: json_wire_unescape t
    rw [json_wire_unescape.eq_def]
    simp only [if_neg h92]

/-- The escape table of the response envelope loses no information:
decoding the escaped form of any byte list returns it exactly. -/
theorem wire_unescape_escape_list (s : List Nat) :
    json_wire_unescape (json_escape_list s) = s := by
  induction s with
  | nil => rfl
  | cons c rest ih => rw [json_escape_list, wire_unescape_escape_byte, ih]

/-- C9: refuted at the one-byte input `[0x01]`.  `json_escape` allocates
`len * 2 + 1` bytes, but escaping the control byte 0x01 emits the
six-character sequence `\u0001`, so the escaped length is 6 > 2 * 1 and
the writer (snprintf plus the final NUL, 7 bytes) stores past the end of
the 3-byte allocation. -/
theorem json_escape_allocation_overflow :
    (json_escape_list [1]).length = 6 ∧
    2 * ([1] : List Nat).length + 1 < (json_escape_list [1]).length + 1 := by decide

/-! ### Exec supervision result (init.c lines 672-739) -/

/-- `WIFEXITED(status)`: the low seven bits of the wait status are zero. -/
def wifexited (status : Nat) : Bool := status &&& 127 == 0

/-- `WEXITSTATUS(status)`: bits 8..15 of the wait status. -/
def wexitstatus (status : Nat) : Nat := (status >>> 8) &&& 255

/-- `exit_code` as computed at init.c line 722:
`WIFEXITED(status) ? WEXITSTATUS(status) : -1`. -/
def exec_exit_code (status : Nat) : Int :=
  if wifexited status then (wexitstatus status : Int) else -1

/-- The fields of the response a post-fork exec emits
(init.c lines 719-734). -/
structure ExecWireResult where
  success : Bool
  exit_code : Int
  stdout_field : List Nat
  stderr_field : List Nat
deriving DecidableEq

/-- The exec response built at init.c lines 729-734 once the collection
loop has finished: `success` is the literal `true` of the format string;
the streams are the captured pipe bytes, NUL-terminated at their read
length and passed through `json_escape` (hence `strlen`-delimited). -/
def handle_exec_result (status : Nat) (stdout_buf stderr_buf : List Nat) : ExecWireResult :=
  { success := true
  , exit_code := exec_exit_code status
  , stdout_field := json_escape stdout_buf
  , stderr_field := json_escape stderr_buf }

theorem and127_eq_mod (m : Nat) : m &&& 127 = m % 128 := by
  have h := Nat.and_pow_two_sub_one_eq_mod m 7
  norm_num at h
  exact h

/-- C1: once the child has been forked, exec never returns a wire error:
for every wait status and captured streams the response has
`success = true`; the exit code is the normal exit status (bits 8..15,
when the low seven bits of the status are zero — covering a normal exit
and the exec-failure shell fallback that exits 127) and `-1` otherwise
(in particular after the timeout SIGKILL); and the stdout/stderr fields
carry the escape of the captured streams. -/
theorem exec_post_fork_success (status : Nat) (out err : List Nat) :
    (handle_exec_result status out err).success = true ∧
    (status % 128 = 0 →
      (handle_exec_result status out err).exit_code = ((status / 256 % 256 : Nat) : Int)) ∧
    (status % 128 ≠ 0 → (handle_exec_result status out err).exit_code = -1) ∧
    (handle_exec_result status out err).stdout_field = json_escape out ∧
    (handle_exec_result status out err).stderr_field = json_escape err := by
  refine ⟨rfl, ?_, ?_, rfl, rfl⟩
  · intro h
    show exec_exit_code status = _
    have hw : wifexited status = true := by
      unfold wifexited
      rw [and127_eq_mod]
      simp [h]
    unfold exec_exit_code
    rw [if_pos hw]
    unfold wexitstatus
    rw [and255_eq_mod, Nat.shiftRight_eq_div_pow, two_pow_8]
  · intro h
    show exec_exit_code status = -1
    have hw : wifexited status = false := by
      unfold wifexited
      rw [and127_eq_mod]
      simp [h]
    unfold exec_exit_code
    rw [if_neg (by simp [hw])]

/-- Witness for `exec_post_fork_success`: a child killed by SIGKILL (wait
status 9) yields success with exit code −1; a child that exited normally
with code 127 (wait status `127 << 8 = 32512`, the exec-failure fallback)
yields success with exit code 127. -/
theorem exec_post_fork_success_witness :
    (handle_exec_result 9 [104, 105] []).success = true ∧
    (handle_exec_result 9 [104, 105] []).exit_code = -1 ∧
    (handle_exec_result 32512 [] [101]).exit_code = 127 := by
  refine ⟨(exec_post_fork_success 9 [104, 105] []).1,
          (exec_post_fork_success 9 [104, 105] []).2.2.1 (by decide), ?_⟩
  have h := (exec_post_fork_success 32512 [] [101]).2.1 (by decide)
  rw [h]
  decide

theorem cString_of_no_nul (s : List Nat) (h : ∀ c ∈ s, c ≠ 0) : cString s = s := by
  induction s with
  | nil => rfl
  | cons c rest ih =>
    have hc : c ≠ 0 := h c (by simp)
    have ih' := ih (fun v hv => h v (by simp [hv]))
    unfold cString at ih' ⊢
    simp [hc, ih']
    exact fun v hv => h v (by simp [hv])

/-- C4 (amended): the exec output fields are a text-safe encoding of the
bytes that reach the escaper: for captured streams free of NUL bytes, the
stdout and stderr response fields decode — via the inverse of the escape
table — to exactly the captured bytes, including bytes at or above 0x80
(which pass through unchanged) and control bytes (escaped as `\u00xx`).
Bytes at and after an embedded NUL are dropped by the `strlen`-based
escaper; see `exec_output_nul_collapse_cex`. -/
theorem exec_output_roundtrip_no_nul (status : Nat) (out err : List Nat)
    (hout : ∀ c ∈ out, c ≠ 0) (herr : ∀ c ∈ err, c ≠ 0) :
    json_wire_unescape (handle_exec_result status out err).stdout_field = out ∧
    json_wire_unescape (handle_exec_result status out err).stderr_field = err := by
  constructor
  · show json_wire_unescape (json_escape out) = out
    rw [json_escape, cString_of_no_nul out hout, wire_unescape_escape_list]
  · show json_wire_unescape (json_escape err) = err
    rw [json_escape, cString_of_no_nul err herr, wire_unescape_escape_list]

/-- Witness for `exec_output_roundtrip_no_nul`: a stream containing a
high byte (0xFF), a control byte (0x1F) and printable bytes round-trips
exactly; so does a stream holding a lone newline. -/
theorem exec_output_roundtrip_no_nul_witness :
    json_wire_unescape (handle_exec_result 0 [104, 200, 31, 255] [10]).stdout_field =
      [104, 200, 31, 255] ∧
    json_wire_unescape (handle_exec_result 0 [104, 200, 31, 255] [10]).stderr_field = [10] :=
  exec_output_roundtrip_no_nul 0 [104, 200, 31, 255] [10] (by decide) (by decide)

/-- C4 counterexample: a NUL byte in the captured stdout is not carried.
`json_escape` measures its input with `strlen`, so the captured stream
`[65, 0, 66]` produces the very same response as the stream `[65]`: the
NUL and everything after it are lost, and no decoder can tell the two
responses apart. -/
theorem exec_output_nul_collapse_cex :
    handle_exec_result 0 [65, 0, 66] [] = handle_exec_result 0 [65] [] ∧
    ([65, 0, 66] : List Nat) ≠ [65] := by decide

/-! ### file_stat response (init.c lines 513-534) -/

/-- Decimal digits of a natural number (asprintf's `%ld` body). -/
def nat_ascii (n : Nat) : List Nat := (Nat.toDigits 10 n).map Char.toNat

/-- Decimal rendering of a (signed) integer. -/
def int_ascii (i : Int) : List Nat :=
  if i < 0 then 45 :: nat_ascii i.natAbs else nat_ascii i.toNat

/-- The success response of `handle_file_stat` (init.c lines 528-531).
The `path` argument is interpolated with a plain `%s`, NOT passed
through `json_escape`; `mode` and `mod_time` are the pre-formatted octal
and ISO-8601 strings. -/
def handle_file_stat_response (path : List Nat) (size : Int)
    (mode mod_time : List Nat) (is_dir : Bool) : List Nat :=
  ascii "\x7b\"success\":true,\"data\":\x7b\"path\":\"" ++ path ++
  ascii "\",\"size\":" ++ int_ascii size ++
  ascii ",\"mode\":\"" ++ mode ++
  ascii "\",\"mod_time\":\"" ++ mod_time ++
  ascii "\",\"is_dir\":" ++ (if is_dir then ascii "true" else ascii "false") ++
  ascii "\x7d\x7d\n"

/-- C6: refuted — the path echoed by `file_stat` is NOT passed through
the escape function before emission.  For the path `a"b` the response
embeds the raw quote (escaping would emit `a\"b`, a different byte
sequence), and for the path `a<LF>b` the emitted record contains two
newline bytes, so it is not a single well-formed envelope line. -/
theorem file_stat_path_not_escaped :
    (handle_file_stat_response (ascii "a\"b") 5 (ascii "644")
        (ascii "2024-01-01T00:00:00Z") false =
      ascii "\x7b\"success\":true,\"data\":\x7b\"path\":\"a\"b\",\"size\":5,\"mode\":\"644\",\"mod_time\":\"2024-01-01T00:00:00Z\",\"is_dir\":false\x7d\x7d\n") ∧
    json_escape_list (ascii "a\"b") ≠ ascii "a\"b" ∧
    (handle_file_stat_response (ascii "a\nb") 5 (ascii "644")
        (ascii "2024-01-01T00:00:00Z") false).count 10 = 2 := by decide

/-! ### Request string unescaping (init.c lines 182-210 and 573-607) -/

/-- The switch of the copy loop of `json_get_string`
(init.c lines 197-204): after a backslash, `n`, `r`, `t`, `\` and `"`
decode to newline, carriage return, tab, backslash and quote; any other
character is passed through literally. -/
def json_unescape_char (c : Nat) : Nat :=
  if c = 110 then 10
  else if c = 114 then 13
  else if c = 116 then 9
  else if c = 92 then 92
  else if c = 34 then 34
  else c

/-- The copy loop of `json_get_string` (init.c lines 193-208) over the
extracted span: a backslash followed by another character decodes via the
switch; a trailing backslash (the `i + 1 < len` guard fails) is copied
literally. -/
def json_unescape_field : List Nat → List Nat
  | [] => []
  | [92] => [92]
  | 92 :: c :: rest => json_unescape_char c :: json_unescape_field rest
  | c :: rest => c :: json_unescape_field rest

/-- The switch of the cmd-array element copy loop of `handle_exec`
(init.c lines 589-593): ONLY `n` and `t` are decoded; every other
character after a backslash — including `r` — is passed through. -/
def cmd_unescape_char (c : Nat) : Nat :=
  if c = 110 then 10
  else if c = 116 then 9
  else c

/-- The cmd-array element copy loop (init.c lines 585-598). -/
def cmd_unescape : List Nat → List Nat
  | [] => []
  | [92] => [92]
  | 92 :: c :: rest => cmd_unescape_char c :: cmd_unescape rest
  | c :: rest => c :: cmd_unescape rest

/-- C5 (amended): in string fields extracted by `json_get_string` all
five escapes `\n`, `\r`, `\t`, `\\`, `\"` decode to newline, carriage
return, tab, backslash and quote, and an unknown escape passes the
following character through literally.  In exec cmd-array elements only
`\n` and `\t` decode to control characters — `\\` and `\"` still yield
backslash and quote via the fall-through — but `\r` yields the LITERAL
letter `r` (114), not carriage return. -/
theorem string_escape_decoding (rest : List Nat) :
    json_unescape_field (92 :: 110 :: rest) = 10 :: json_unescape_field rest ∧
    json_unescape_field (92 :: 114 :: rest) = 13 :: json_unescape_field rest ∧
    json_unescape_field (92 :: 116 :: rest) = 9 :: json_unescape_field rest ∧
    json_unescape_field (92 :: 92 :: rest) = 92 :: json_unescape_field rest ∧
    json_unescape_field (92 :: 34 :: rest) = 34 :: json_unescape_field rest ∧
    (∀ c, c ≠ 110 → c ≠ 114 → c ≠ 116 → c ≠ 92 → c ≠ 34 →
      json_unescape_field (92 :: c :: rest) = c :: json_unescape_field rest) ∧
    cmd_unescape (92 :: 110 :: rest) = 10 :: cmd_unescape rest ∧
    cmd_unescape (92 :: 116 :: rest) = 9 :: cmd_unescape rest ∧
    cmd_unescape (92 :: 92 :: rest) = 92 :: cmd_unescape rest ∧
    cmd_unescape (92 :: 34 :: rest) = 34 :: cmd_unescape rest ∧
    cmd_unescape (92 :: 114 :: rest) = 114 :: cmd_unescape rest := by
  refine ⟨rfl, rfl, rfl, rfl, rfl, ?_, rfl, rfl, rfl, rfl, rfl⟩
  intro c h110 h114 h116 h92 h34
  show json_unescape_char c :: json_unescape_field rest = c :: json_unescape_field rest
  simp [json_unescape_char, h110, h114, h116, h92, h34]

/-- Witness for `string_escape_decoding` at the unknown escape `\x`
(character 120) with an empty remainder: it decodes to the literal `x`. -/
theorem string_escape_decoding_witness :
    json_unescape_field [92, 120] = [120] :=
  (string_escape_decoding []).2.2.2.2.2.1 120 (by decide) (by decide) (by decide)
    (by decide) (by decide)

/-- C5 counterexample: in a cmd-array element the escape `\r` does not
decode to carriage return (13): the element parser of `handle_exec`
handles only `\n` and `\t`, so the wire form `\r` decodes to the literal
letter `r` (114). -/
theorem cmd_carriage_return_cex :
    cmd_unescape [92, 114] = [114] ∧ cmd_unescape [92, 114] ≠ [13] := by decide

/-! ### json_get_int and the exec timeout (init.c lines 213-225, 613-615, 707) -/

/-- Suffix of the haystack after the first occurrence of `pat`
(models `strstr` plus `start += strlen(search)`). -/
def find_after (pat : List Nat) : List Nat → Option (List Nat)
  | [] => if pat.isPrefixOf ([] : List Nat) then some [] else none
  | c :: rest =>
    if pat.isPrefixOf (c :: rest) then some ((c :: rest).drop pat.length)
    else find_after pat rest

/-- `isspace(3)` on the C locale, as skipped by `atoi`. -/
def c_isspace (c : Nat) : Bool :=
  c == 32 || c == 9 || c == 10 || c == 11 || c == 12 || c == 13

def skip_spaces : List Nat → List Nat
  | [] => []
  | c :: rest => if c_isspace c then skip_spaces rest else c :: rest

def atoi_digits : List Nat → Nat → Nat
  | c :: rest, acc => if 48 ≤ c ∧ c ≤ 57 then atoi_digits rest (acc * 10 + (c - 48)) else acc
  | [], acc => acc

/-- `atoi(3)`: optional whitespace, optional sign, leading decimal
digits; 0 when no digit is present.  (Overflow of the C `int` is not
modelled; the requests considered stay well inside its range.) -/
def atoi (s : List Nat) : Int :=
  match skip_spaces s with
  | 45 :: rest => -(atoi_digits rest 0 : Int)
  | 43 :: rest => (atoi_digits rest 0 : Int)
  | rest => (atoi_digits rest 0 : Int)

/-- The separator skip of `json_get_int` (init.c line 221): spaces,
colons and tabs after the key. -/
def json_skip_sct : List Nat → List Nat
  | [] => []
  | c :: rest => if c = 32 ∨ c = 58 ∨ c = 9 then json_skip_sct rest else c :: rest

/-- `json_get_int` (init.c lines 213-225): search for `"key"`, skip
separators, parse with `atoi`.  `none` models the `return -1` path in
which the caller's variable is left unchanged. -/
def json_get_int (json key : List Nat) : Option Int :=
  (find_after (34 :: key ++ [34]) json).map fun rest => atoi (json_skip_sct rest)

/-- The exec timeout (init.c lines 613-615): `timeout_ms` starts as 30000
and is overwritten exactly when `json_get_int` finds the key. -/
def exec_timeout_ms (json : List Nat) : Int :=
  match json_get_int json (ascii "timeout") with
  | none => 30000
  | some v => v

/-- The timeout test of the collection loop (init.c line 707):
`time(NULL) - start > timeout_ms / 1000` with C `int` division
(truncation toward zero, i.e. `Int.tdiv`). -/
def timeout_expired (elapsed timeout_ms : Int) : Bool :=
  decide (elapsed > Int.tdiv timeout_ms 1000)

theorem tdiv_le_neg_one {v : Int} (h : v ≤ -1000) : Int.tdiv v 1000 ≤ -1 := by
  have h1 : Int.tdiv v 1000 = -(Int.tdiv (-v) 1000) := by
    have h0 := Int.neg_tdiv (-v) 1000
    simp only [neg_neg] at h0
    exact h0
  rw [h1]
  have h2 : Int.tdiv (-v) 1000 = (-v) / 1000 := Int.tdiv_eq_ediv (by omega) (by omega)
  rw [h2]
  omega

/-- C7 (amended): when the `timeout` field is absent the wall-clock
timeout is the default 30000 ms; but a NEGATIVE parsed timeout is used as
given rather than replaced by the default: any value at most −1000 makes
the kill condition `elapsed > timeout_ms / 1000` hold already at elapsed
0, so the child is killed on the first poll instead of after 30 s. -/
theorem exec_timeout_default_and_negative (json : List Nat)
    (habsent : find_after (34 :: ascii "timeout" ++ [34]) json = none)
    (v : Int) (hneg : v ≤ -1000) :
    exec_timeout_ms json = 30000 ∧
    timeout_expired 0 v = true ∧
    timeout_expired 0 30000 = false := by
  refine ⟨?_, ?_, by decide⟩
  · unfold exec_timeout_ms json_get_int
    rw [habsent]
    rfl
  · have hd := tdiv_le_neg_one hneg
    simp only [timeout_expired, decide_eq_true_eq]
    omega

/-- Witness for `exec_timeout_default_and_negative`: the ping request
carries no timeout field and gets the default; −1000 expires at once. -/
theorem exec_timeout_default_and_negative_witness :
    exec_timeout_ms (ascii "\x7b\"operation\":\"ping\"\x7d") = 30000 ∧
    timeout_expired 0 (-1000) = true ∧
    timeout_expired 0 30000 = false :=
  exec_timeout_default_and_negative (ascii "\x7b\"operation\":\"ping\"\x7d")
    (by decide) (-1000) (by decide)

/-- C7 counterexample: for the request
`{"operation":"exec","cmd":["/bin/sleep"],"timeout":-5000}` the parsed
timeout is −5000 — the negative value is used as given, not replaced by
the default 30000 — and the kill condition already holds at elapsed 0,
unlike under the default. -/
theorem exec_timeout_negative_cex :
    exec_timeout_ms
        (ascii "\x7b\"operation\":\"exec\",\"cmd\":[\"/bin/sleep\"],\"timeout\":-5000\x7d") =
      -5000 ∧
    (-5000 : Int) ≠ 30000 ∧
    timeout_expired 0 (-5000) = true ∧
    timeout_expired 0 30000 = false := by decide

/-! ### Connection read loop (init.c lines 743-764) -/

/-- `MAX_REQUEST_SIZE` (init.c line 45): 128 MiB. -/
def MAX_REQUEST_SIZE : Nat := 128 * 1024 * 1024

/-- The request read loop of `handle_connection` (init.c lines 755-762).
The stream is modelled as delivering, on each `read`, all still
unconsumed bytes of `input` up to the requested count
`MAX_REQUEST_SIZE - total - 1`; the loop stops when nothing is delivered
(`n <= 0`, end of input), when a newline byte is in the buffer
(`memchr(request, 10, total)`), or when `total` has reached
`MAX_REQUEST_SIZE - 1`.  The result is the final `total`: the number of
request bytes buffered. -/
def connLoop (input : List Nat) (total : Nat) : Nat :=
  if _h1 : total < MAX_REQUEST_SIZE - 1 then
    if _h2 : min (MAX_REQUEST_SIZE - total - 1) (input.length - total) = 0 then total
    else if (input.take (total + min (MAX_REQUEST_SIZE - total - 1) (input.length - total))).contains 10 then
      total + min (MAX_REQUEST_SIZE - total - 1) (input.length - total)
    else connLoop input (total + min (MAX_REQUEST_SIZE - total - 1) (input.length - total))
  else total
termination_by MAX_REQUEST_SIZE - 1 - total
decreasing_by omega

/-- The number of request bytes `handle_connection` reads before
processing the buffer. -/
def request_bytes_read (input : List Nat) : Nat := connLoop input 0

theorem connLoop_le (input : List Nat) (total : Nat) (h : total ≤ MAX_REQUEST_SIZE - 1) :
    connLoop input total ≤ MAX_REQUEST_SIZE - 1 := by
  rw [connLoop]
  by_cases h1 : total < MAX_REQUEST_SIZE - 1
  · rw [dif_pos h1]
    by_cases h2 : min (MAX_REQUEST_SIZE - total - 1) (input.length - total) = 0
    · rw [dif_pos h2]
      exact h
    · rw [dif_neg h2]
      by_cases h3 : (input.take (total + min (MAX_REQUEST_SIZE - total - 1) (input.length - total))).contains 10 = true
      · rw [if_pos h3]
        omega
      · rw [if_neg h3]
        exact connLoop_le input _ (by omega)
  · rw [dif_neg h1]
    exact h
termination_by MAX_REQUEST_SIZE - 1 - total
decreasing_by omega

/-- C3 (amended): the connection handler never buffers more than
128 MiB − 1 request bytes: each read requests at most
`MAX_REQUEST_SIZE - total - 1` bytes and the loop stops once `total`
reaches `MAX_REQUEST_SIZE - 1`.  So a request of exactly 128 MiB is never
read in full (its final byte is never requested), the excess of any
larger request is equally never read, and there is no size-based
rejection: the truncated buffer is processed as-is. -/
theorem request_read_bounded (input : List Nat) :
    request_bytes_read input ≤ MAX_REQUEST_SIZE - 1 :=
  connLoop_le input 0 (by omega)

theorem replicate_65_no_newline : ∀ n, (List.replicate n (65 : Nat)).contains 10 = false
  | 0 => rfl
  | n + 1 => by
    rw [List.replicate_succ, List.contains_cons]
    simp [replicate_65_no_newline n]

theorem connLoop_exact_max :
    connLoop (List.replicate (MAX_REQUEST_SIZE - 1) 65 ++ [10]) 0 = MAX_REQUEST_SIZE - 1 := by
  have hM : MAX_REQUEST_SIZE = 134217728 := rfl
  have hlen : (List.replicate (MAX_REQUEST_SIZE - 1) (65 : Nat) ++ [10]).length =
      MAX_REQUEST_SIZE := by
    rw [List.length_append, List.length_replicate]
    show MAX_REQUEST_SIZE - 1 + 1 = MAX_REQUEST_SIZE
    omega
  have htake : (List.replicate (MAX_REQUEST_SIZE - 1) (65 : Nat) ++ [10]).take
      (MAX_REQUEST_SIZE - 1) = List.replicate (MAX_REQUEST_SIZE - 1) 65 :=
    List.take_left' (List.length_replicate _ _)
  have hmin : min (MAX_REQUEST_SIZE - 0 - 1)
      ((List.replicate (MAX_REQUEST_SIZE - 1) (65 : Nat) ++ [10]).length - 0) =
      MAX_REQUEST_SIZE - 1 := by
    rw [hlen]
    omega
  rw [connLoop]
  rw [dif_pos (show (0 : Nat) < MAX_REQUEST_SIZE - 1 by omega)]
  rw [hmin]
  rw [dif_neg (show ¬(MAX_REQUEST_SIZE - 1 = 0) by omega)]
  rw [Nat.zero_add]
  rw [htake]
  rw [replicate_65_no_newline]
  rw [if_neg (by decide : ¬(false = true))]
  rw [connLoop]
  rw [dif_neg (by omega : ¬(MAX_REQUEST_SIZE - 1 < MAX_REQUEST_SIZE - 1))]

/-- C3 counterexample: the request of exactly 128 MiB whose newline
terminator is its last byte.  The handler buffers only the first
128 MiB − 1 bytes — the newline is never read, so the request is not
read in full and its terminator is never seen — and no rejection is
issued: the truncated buffer is handed to the parser. -/
theorem request_exact_max_cex :
    (List.replicate (MAX_REQUEST_SIZE - 1) (65 : Nat) ++ [10]).length = MAX_REQUEST_SIZE ∧
    request_bytes_read (List.replicate (MAX_REQUEST_SIZE - 1) 65 ++ [10]) =
      MAX_REQUEST_SIZE - 1 ∧
    ((List.replicate (MAX_REQUEST_SIZE - 1) (65 : Nat) ++ [10]).take
        (request_bytes_read (List.replicate (MAX_REQUEST_SIZE - 1) 65 ++ [10]))).contains 10 =
      false := by
  have hM : MAX_REQUEST_SIZE = 134217728 := rfl
  refine ⟨?_, connLoop_exact_max, ?_⟩
  · rw [List.length_append, List.length_replicate]
    show MAX_REQUEST_SIZE - 1 + 1 = MAX_REQUEST_SIZE
    omega
  · rw [show request_bytes_read (List.replicate (MAX_REQUEST_SIZE - 1) 65 ++ [10]) =
        MAX_REQUEST_SIZE - 1 from connLoop_exact_max]
    rw [List.take_left' (List.length_replicate _ _)]
    exact replicate_65_no_newline _

/-! ### Shutdown orchestration (init.c lines 896-934 and 980-986) -/

inductive ShutdownEvent where
  | closeListener
  | sigtermAll
  | graceSleep
  | sigkillAll
  | reapRemaining
  | syncCall
  | unmountCall (path : List Nat)
  | rebootAutoboot
  | rebootPowerOff
  | exitZero
deriving DecidableEq

/-- The straight-line event trace of `do_shutdown` (init.c lines
896-934): close the listener socket when it is open (`vsock_fd >= 0`),
broadcast SIGTERM (`kill(-1, SIGTERM)`), sleep the 2-second grace,
broadcast SIGKILL, reap the remaining children, `sync`, lazily unmount in
reverse mount order, `sync` again, then `reboot(RB_AUTOBOOT)` or
`reboot(RB_POWER_OFF)` according to the flag, and finally `_exit(0)`
(reached only if the reboot call itself returns). -/
def do_shutdown_trace (do_reboot vsock_open : Bool) : List ShutdownEvent :=
  (if vsock_open then [ShutdownEvent.closeListener] else []) ++
  [ShutdownEvent.sigtermAll, ShutdownEvent.graceSleep, ShutdownEvent.sigkillAll,
   ShutdownEvent.reapRemaining, ShutdownEvent.syncCall,
   ShutdownEvent.unmountCall (ascii "/tmp"), ShutdownEvent.unmountCall (ascii "/run"),
   ShutdownEvent.unmountCall (ascii "/dev/pts"), ShutdownEvent.unmountCall (ascii "/dev"),
   ShutdownEvent.unmountCall (ascii "/sys"), ShutdownEvent.unmountCall (ascii "/proc"),
   ShutdownEvent.syncCall] ++
  (if do_reboot then [ShutdownEvent.rebootAutoboot] else [ShutdownEvent.rebootPowerOff]) ++
  [ShutdownEvent.exitZero]

/-- Events after which control cannot return to the caller: for PID 1,
`reboot(2)` with RB_AUTOBOOT or RB_POWER_OFF does not return, and
`_exit(0)` never returns. -/
def terminating : ShutdownEvent → Bool
  | ShutdownEvent.rebootAutoboot => true
  | ShutdownEvent.rebootPowerOff => true
  | ShutdownEvent.exitZero => true
  | _ => false

/-- `main` after `main_loop` returns (init.c lines 982-986): the only
statement before `return 0` is `do_shutdown(reboot_requested)`, so the
process trace after the reaping loop is exactly the shutdown trace. -/
def main_after_loop_trace (reboot_requested vsock_open : Bool) : List ShutdownEvent :=
  do_shutdown_trace reboot_requested vsock_open

/-- C8: in every execution of the shutdown orchestration with the
listener socket open, the listener is closed strictly before the first
broadcast SIGTERM; and the trace after the main reaping loop always ends
in a terminating event — the reboot primitive (per the flag) followed by
`_exit(0)` — so control never returns to the reaping loop. -/
theorem shutdown_order_and_termination (r v : Bool) :
    (v = true →
      (do_shutdown_trace r v).indexOf ShutdownEvent.closeListener <
        (do_shutdown_trace r v).indexOf ShutdownEvent.sigtermAll) ∧
    (main_after_loop_trace r v).getLast? = some ShutdownEvent.exitZero ∧
    (main_after_loop_trace r v).any terminating = true ∧
    (r = true → ShutdownEvent.rebootAutoboot ∈ do_shutdown_trace r v) ∧
    (r = false → ShutdownEvent.rebootPowerOff ∈ do_shutdown_trace r v) := by
  cases r <;> cases v <;> exact ⟨by decide, by decide, by decide, by decide, by decide⟩

/-- Witness for `shutdown_order_and_termination` at a power-off shutdown
with the listener open: the close precedes the SIGTERM broadcast and the
power-off call is in the trace. -/
theorem shutdown_order_and_termination_witness :
    (do_shutdown_trace false true).indexOf ShutdownEvent.closeListener <
      (do_shutdown_trace false true).indexOf ShutdownEvent.sigtermAll ∧
    ShutdownEvent.rebootPowerOff ∈ do_shutdown_trace false true :=
  ⟨(shutdown_order_and_termination false true).1 rfl,
   (shutdown_order_and_termination false true).2.2.2.2 rfl⟩
